import Mathlib

/-!
# Verification of `s3-log-extraction` against its specification

A shallow embedding of the parts of the `dandi/s3-log-extraction` repository
that the frozen claims C1-C10 are about, together with theorems settling each
claim.  Every definition is a direct translation of the named Python source
location (file and line numbers are given in the doc comments); definitions
marked `Modelled from the spec:` stand for repository code whose source file
is absent from the source tree (only its callers are present).

Strings are represented as `List Char` (obtained from Lean string literals via
`String.data`) so that all computations reduce by structural recursion.
-/

set_option autoImplicit false
set_option maxRecDepth 8000

namespace S3LogExtraction

/-- Platform discriminator mirroring the `sys.platform == "win32"` checks in
the source. -/
inductive Platform where
  | win32
  | posix

deriving instance DecidableEq for Platform

/-- Translation of `_handle_max_workers` from
`src/s3_log_extraction/extractors/_utils.py`, lines 81-107:

* `workers == 0` warns and falls back to `-2`;
* on Windows, any value other than `1` is forced to `1`;
* negative values are mapped through Python's modulo:
  `max_workers = workers % cpu_count + 1` (Python `%` with a positive divisor
  is `Int.emod`);
* positive values are clamped to `cpu_count`.

`cpu_count` is the value of `os.cpu_count()`. -/
def handle_max_workers (platform : Platform) (cpu_count : Nat) (workers : Int) : Int :=
  let w1 : Int := if workers = 0 then -2 else workers
  let w2 : Int := if w1 ≠ 1 ∧ platform = Platform.win32 then 1 else w1
  if w2 < 0 then w2 % (cpu_count : Int) + 1
  else if w2 > (cpu_count : Int) then cpu_count
  else w2

/-! ### C1: the per-line filter of `extraction_awk_script`

Translation of the awk program embedded (as a string) in
`S3AccessLogExtractor.__init__`,
`src/dandi_s3_log_parser/_extraction/_s3_access_log_extractor.py` lines
57-76.  The program is invoked with `-F'" '`, i.e. the field separator is the
two-character sequence double-quote-space; awk field and array indices are
1-based and an absent index yields the empty string; `split(s, arr, " ")`
splits on runs of whitespace, dropping leading and trailing runs.  The
condition uses `&`, which is not a conjunction operator in any standard awk
(mawk and gawk reject it); it is embedded here as the conjunction it plainly
denotes, which is the reading most favourable to the source.  A line that
fails the condition produces no output and no error: the program has no other
effect per line. -/

/-- awk `split(s, arr, " ")`: split on runs of spaces, discarding empty
fields.  (`acc` holds the current field, reversed.) -/
def wsSplitAux (acc : List Char) : List Char → List (List Char)
  | [] => if acc.isEmpty then [] else [acc.reverse]
  | c :: rest =>
    if c = ' ' then
      if acc.isEmpty then wsSplitAux [] rest else acc.reverse :: wsSplitAux [] rest
    else wsSplitAux (c :: acc) rest

/-- awk whitespace split (the source log lines contain no tabs). -/
def wsSplit (s : List Char) : List (List Char) := wsSplitAux [] s

/-- Record splitting with field separator `-F'" '` (the literal two-character
regex double-quote-space), leftmost non-overlapping occurrences. -/
def splitQuoteSpace : List Char → List (List Char)
  | [] => [[]]
  | '"' :: ' ' :: rest => [] :: splitQuoteSpace rest
  | c :: rest =>
    match splitQuoteSpace rest with
    | [] => [[c]]
    | f :: fs => (c :: f) :: fs

/-- awk 1-based field or array access; an absent index yields the empty
string. -/
def awkField (fields : List (List Char)) (i : Nat) : List Char :=
  fields.getD (i - 1) []

/-- The emission condition of `extraction_awk_script` (line 69 of the source):
`request_type == "REST.GET.OBJECT" & substr(status, 1, 1) == "2"`, where
`request_type = pre_uri_fields[8]`, `status = post_uri_fields[1]`,
`pre_uri_fields = split($1, " ")` and `post_uri_fields = split($3, " ")`. -/
def emitsRecord (line : List Char) : Bool :=
  let fields := splitQuoteSpace line
  let pre_uri_fields := wsSplit (awkField fields 1)
  let post_uri_fields := wsSplit (awkField fields 3)
  let request_type := awkField pre_uri_fields 8
  let status := awkField post_uri_fields 1
  request_type == "REST.GET.OBJECT".data && status.take 1 == ['2']

/-- The record printed by `extraction_awk_script` when the condition holds:
`(timestamp, ip, blob, bytes_sent)` = `(pre[3], pre[5], pre[9], post[3])`;
`none` when the line is skipped. -/
def extractedRecord (line : List Char) :
    Option (List Char × List Char × List Char × List Char) :=
  if emitsRecord line then
    let fields := splitQuoteSpace line
    let pre_uri_fields := wsSplit (awkField fields 1)
    let post_uri_fields := wsSplit (awkField fields 3)
    some (awkField pre_uri_fields 3, awkField pre_uri_fields 5,
      awkField pre_uri_fields 9, awkField post_uri_fields 3)
  else none

/-- Splitting on the single character `"`.  Used only to state the claim's
filter (spec §4.3 partitions the line on the double-quote character). -/
def splitQuote : List Char → List (List Char)
  | [] => [[]]
  | '"' :: rest => [] :: splitQuote rest
  | c :: rest =>
    match splitQuote rest with
    | [] => [[c]]
    | f :: fs => (c :: f) :: fs

/-- Claim-side definition, for the comparison only (C1 / spec P6 and §4.3): a
record is emitted iff the request type (8th whitespace field of the pre-URI
segment) is `REST.GET.OBJECT`, the status (1st whitespace field of the
post-URI segment) is a 3-digit code beginning with `2`, and the client IP
(5th whitespace field of the pre-URI segment) is not matched by the
IPs-to-skip predicate (default: match nothing). -/
def claimEmits (ipsToSkip : List Char → Bool) (line : List Char) : Bool :=
  let fields := splitQuote line
  let pre_uri_fields := wsSplit (awkField fields 1)
  let post_uri_fields := wsSplit (awkField fields 3)
  let request_type := awkField pre_uri_fields 8
  let status := awkField post_uri_fields 1
  let ip := awkField pre_uri_fields 5
  request_type == "REST.GET.OBJECT".data &&
    (status.length == 3 && status.take 1 == ['2'] && status.all Char.isDigit) &&
    !(ipsToSkip ip)

/-- The default IPs-to-skip predicate of the claim: match nothing. -/
def defaultIpsToSkip : List Char → Bool := fun _ => false

/-- The request-type field as the awk script reads it. -/
def awkRequestTypeField (line : List Char) : List Char :=
  awkField (wsSplit (awkField (splitQuoteSpace line) 1)) 8

/-- The status field as the awk script reads it (the first whitespace field of
the third quote-space segment; on canonical S3 log lines this is the quoted
user-agent region, not the HTTP status). -/
def awkStatusField (line : List Char) : List Char :=
  awkField (wsSplit (awkField (splitQuoteSpace line) 3)) 1

/-- A canonical, well-formed `REST.GET.OBJECT` log line with HTTP status 200
(the shape of spec scenario 1). -/
def canonicalGetLine : List Char :=
  ("79a5 dandiarchive [14/Nov/2024:12:34:56 +0000] 10.0.0.1 arn:aws:iam::123456:user REQID REST.GET.OBJECT blobs/aa/bb/aabbccdd \"GET /blobs/aa/bb/aabbccdd HTTP/1.1\" 200 - 1024 1024 12 11 \"-\" \"aws-cli/2.0\" -").data

/-- A malformed line on which the awk script's status field is `2x` (two
characters, not a 3-digit code). -/
def shortStatusLine : List Char :=
  ("a b c d e f g REST.GET.OBJECT\" x\" 2x y").data

/-! ### C3: the mirror-copy corruption check on startup

Translation of `S3LogAccessExtractor.__init__`,
`src/s3_log_extraction/extractors/_s3_log_access_extractor.py` lines 70-82.
The start/end record files are read (never written) and their line sets are
differenced, but only when **both** files exist; otherwise the difference is
left at its initial empty value and no error is raised. -/

/-- Outcome of constructing the extractor. -/
inductive InitOutcome where
  | ok
  | corruptionError

deriving instance DecidableEq for InitOutcome

/-- `mirror_copy_start_record - mirror_copy_end_record` as computed on lines
70-76: `none` stands for a record file that does not exist; the set
difference is taken only when both files exist (line 71). -/
def mirrorRecordDifference (startRec endRec : Option (List (List Char))) :
    List (List Char) :=
  match startRec, endRec with
  | some s, some e => s.filter (fun p => !(e.contains p))
  | _, _ => []

/-- Lines 77-82: raise `ValueError` (demanding a cache reset) iff the
difference is non-empty. -/
def mirrorCorruptionCheck (startRec endRec : Option (List (List Char))) :
    InitOutcome :=
  if (mirrorRecordDifference startRec endRec).length > 0 then
    InitOutcome.corruptionError
  else InitOutcome.ok

/-! ### C4, C5: `extract_file` -/

/-- The four temporary streams produced by the awk pass for one log file
(`object_keys.txt`, `timestamps.txt`, `bytes_sent.txt`, `full_ips.txt` in the
per-PID temporary directory). -/
structure TempStreams where
  objectKeys : List (List Char)
  timestamps : List (List Char)
  bytesSent : List (List Char)
  fullIps : List (List Char)

/-- The extractor state read and written by `extract_file`: the stop-sentinel
presence, the in-memory `self.extraction_record`, the three record files, and
the mirror tree (abstract, of type `μ`, updated by `_mirror_copy`). -/
structure ExtractorState (μ : Type) where
  stopFilePresent : Bool
  extractionRecord : List (List Char)
  extractionRecordFile : List (List Char)
  mirrorStartRecordFile : List (List Char)
  mirrorEndRecordFile : List (List Char)
  mirror : μ

/-- Translation of `S3LogAccessExtractor.extract_file`
(`src/s3_log_extraction/extractors/_s3_log_access_extractor.py` lines
170-207).  `runExtraction path` stands for the awk pass `_run_extraction` on
the log file at `path`, returning the temporary streams it wrote, or `none`
when it produced no `object_keys.txt` (the early return of lines 190-192);
`mcopy` stands for `_mirror_copy`.  Not modelled: the per-PID temporary
directory bookkeeping (lines 181-186, 203) and the fatal `RuntimeError` when
awk exits non-zero, neither of which touches the state examined here. -/
def extract_file {μ : Type} (mcopy : μ → TempStreams → μ)
    (runExtraction : List Char → Option TempStreams)
    (s : ExtractorState μ) (path : List Char) : ExtractorState μ :=
  if s.stopFilePresent then s
  else if s.extractionRecord.contains path then s
  else
    match runExtraction path with
    | none => s
    | some streams =>
      { s with
        mirrorStartRecordFile := s.mirrorStartRecordFile ++ [path]
        mirror := mcopy s.mirror streams
        mirrorEndRecordFile := s.mirrorEndRecordFile ++ [path]
        extractionRecord := s.extractionRecord ++ [path]
        extractionRecordFile := s.extractionRecordFile ++ [path] }

/-- `get_records_directory`
(`src/s3_log_extraction/config/_config.py` lines 113-136): the `records`
subdirectory of the cache root. -/
def get_records_directory (cache : List Char) : List Char :=
  cache ++ ("/records").data

/-- Modelled from the spec: `get_extraction_directory` is imported from
`..config` by `extractors/_stop.py` and the extractors, but the config module
in the source tree does not define it (only its callers are present).  Per
spec §3 and §4.1 it is the `extraction/` subdirectory of the cache root. -/
def get_extraction_directory (cache : List Char) : List Char :=
  cache ++ ("/extraction").data

/-- The sentinel path the workers poll: `self.stop_file_path =
self.records_directory / "stop_extraction"` (extractor lines 54-56). -/
def workerStopFilePath (cache : List Char) : List Char :=
  get_records_directory cache ++ ("/stop_extraction").data

/-- The sentinel path the stop operation creates:
`stop_file_path = extraction_directory / "stop_extraction"`
(`src/s3_log_extraction/extractors/_stop.py` lines 21-29; the CLI `stop`
command touches the same path). -/
def stopCommandSentinelPath (cache : List Char) : List Char :=
  get_extraction_directory cache ++ ("/stop_extraction").data

/-- The filesystem (a list of existing paths) after `stop_extraction()` runs:
the touched sentinel is added. -/
def filesystemAfterStop (cache : List Char) (fs : List (List Char)) :
    List (List Char) :=
  stopCommandSentinelPath cache :: fs

/-- Whether a worker over cache root `cache` sees the stop sentinel in
filesystem `fs` (the `self.stop_file_path.exists()` check, line 172). -/
def workerSeesStop (cache : List Char) (fs : List (List Char)) : Bool :=
  fs.contains (workerStopFilePath cache)

/-- Concrete values used by the closed theorems below. -/
def cacheRootC : List Char := ("/cache").data

/-- A concrete log-file path. -/
def aLogPath : List Char := ("/logs/a.log").data

/-- A second concrete log-file path. -/
def bLogPath : List Char := ("/logs/b.log").data

/-- A concrete one-record stream bundle. -/
def exampleStreams : TempStreams :=
  { objectKeys := [("blobs/aaa/bbb/key").data]
    timestamps := [("241114123456").data]
    bytesSent := [("1024").data]
    fullIps := [("10.0.0.1").data] }

/-- The extractor state with empty records over a mirror modelled as a
counter of `_mirror_copy` invocations. -/
def freshState (stop : Bool) : ExtractorState Nat :=
  { stopFilePresent := stop
    extractionRecord := []
    extractionRecordFile := []
    mirrorStartRecordFile := []
    mirrorEndRecordFile := []
    mirror := 0 }

/-- A `_mirror_copy` model over the counter mirror: every invocation is
visible. -/
def countingMirrorCopy (m : Nat) (_ : TempStreams) : Nat := m + 1

/-! ### C6: `extract_directory` candidate selection

Translation of `S3LogAccessExtractor.extract_directory`
(`src/s3_log_extraction/extractors/_s3_log_access_extractor.py` lines
209-230).  Line 214-216 natural-sorts the `rglob` result and immediately
pours it into a Python `set`, discarding the sort; line 217 subtracts the
already-extracted paths (another set); line 219 takes `list(...)[: limit]`
when a limit is given, and otherwise iterates the set itself.  CPython
iterates a set of strings in an order determined by the per-process
randomized string-hash seed, so the source guarantees nothing about the
iteration order beyond its being some enumeration of the set; that order is
therefore a parameter `setOrder` here, and two runs of the same program may
use two different values of it. -/
def extract_directory_dispatch (setOrder : List (List Char) → List (List Char))
    (globbedLogFiles : List (List Char)) (extractionRecord : List (List Char))
    (limit : Option Nat) : List (List Char) :=
  let unextracted :=
    (globbedLogFiles.dedup).filter (fun p => !(extractionRecord.contains p))
  let seq := setOrder unextracted
  match limit with
  | some l => seq.take l
  | none => seq

/-! ### C2: `index_ips` -/

/-- A Python runtime error. -/
inductive PyError where
  | nameError (name : List Char)

deriving instance DecidableEq for PyError

/-- Translation of `index_ips`
(`src/s3_log_extraction/ip_utils/_index_ips.py` lines 13-107).  The mirror's
`full_ips.txt` files (the `rglob` of line 53) are processed in batches; for
the first non-empty batch the inner progress bar is constructed with
`total=len(full_ip_file_paths_to_process)` (line 72), a name bound nowhere in
the function or module, so Python raises `NameError` before any file is
indexed and before any `save_index_to_ip` call (line 106 is inside the batch
loop).  When the mirror holds no `full_ips.txt` at all, the batch loop body
never runs and the function returns with the loaded map unchanged and
unsaved. -/
def index_ips (fullIpFiles : List (List Char))
    (index_to_ip : List (Nat × List Char)) :
    Except PyError (List (Nat × List Char)) :=
  if fullIpFiles.isEmpty then Except.ok index_to_ip
  else Except.error (PyError.nameError ("full_ip_file_paths_to_process").data)

/-! ### C10: the grouping step of `DandiS3LogAccessExtractor._mirror_copy`

Translation of
`src/s3_log_extraction/extractors/_dandi_s3_log_access_extractor.py` lines
142-164.  `all_object_keys` is the full line list of `object_keys.txt`
(line 83); the three data streams are iterated as open files, and
`zip(all_object_keys, timestamps_file, bytes_sent_file, ips_file)` (lines
148-150) truncates to the shortest of the four.  Each zipped record appends
its three components to the `collections.defaultdict` entry of its key, and
lines 155-164 then append each per-key triple to the mirror files
`timestamps.txt`, `bytes_sent.txt`, `full_ips.txt`. -/

/-- Python `zip` over four lists: truncate to the shortest. -/
def zip4 {α β γ δ : Type} : List α → List β → List γ → List δ → List (α × β × γ × δ)
  | a :: as, b :: bs, c :: cs, d :: ds => (a, b, c, d) :: zip4 as bs cs ds
  | _, _, _, _ => []

/-- The per-key triple of lines destined for `timestamps.txt`,
`bytes_sent.txt` and `full_ips.txt`. -/
structure KeyData where
  timestamps : List (List Char)
  bytesSent : List (List Char)
  fullIps : List (List Char)

deriving instance DecidableEq for KeyData

/-- One `defaultdict` update: append the record's three components to the
entry of key `k`, creating the entry (at the end, Python dict insertion
order) on first occurrence. -/
def updGroups (m : List (List Char × KeyData)) (k t b i : List Char) :
    List (List Char × KeyData) :=
  match m with
  | [] => [(k, ⟨[t], [b], [i]⟩)]
  | (k₀, d) :: rest =>
    if k₀ = k then
      (k₀, ⟨d.timestamps ++ [t], d.bytesSent ++ [b], d.fullIps ++ [i]⟩) :: rest
    else (k₀, d) :: updGroups rest k t b i

/-- The grouping loop of `_mirror_copy` (lines 147-153). -/
def dandi_mirror_groups (keys ts bs ips : List (List Char)) :
    List (List Char × KeyData) :=
  (zip4 keys ts bs ips).foldl
    (fun m q => updGroups m q.1 q.2.1 q.2.2.1 q.2.2.2) []

/-- `defaultdict` lookup: a key never seen maps to the empty triple. -/
def lookupGroups (m : List (List Char × KeyData)) (k : List Char) : KeyData :=
  match m with
  | [] => ⟨[], [], []⟩
  | (k₀, d) :: rest => if k₀ = k then d else lookupGroups rest k

/-! ### C8, C9: the encrypted index-to-IP cache

Translation of `load_index_to_ip` / `save_index_to_ip`
(`src/s3_log_extraction/ip_utils/_ip_cache.py`).  The YAML serialisation of
the `{u64 index: ip}` mapping is modelled concretely as the canonical
one-`k: v`-line-per-entry document (the yaml rendering of a mapping from
integers to plain scalars); the encryption primitives are absent from the
source tree and are modelled from the spec. -/

/-- The decimal digit `d` (`d < 10`) as a character. -/
def digitToChar (d : Nat) : Char := Char.ofNat (48 + d)

/-- A character read back as a decimal digit value. -/
def charToDigit (c : Char) : Nat := c.toNat - 48

/-- Little-endian decimal digits of `n`, with explicit fuel (any `fuel > n`
is sufficient). -/
def digitsRevAux : Nat → Nat → List Nat
  | 0, _ => []
  | fuel + 1, n => if n = 0 then [] else n % 10 :: digitsRevAux fuel (n / 10)

/-- `n` rendered in decimal. -/
def natToChars (n : Nat) : List Char :=
  if n = 0 then [('0' : Char)]
  else ((digitsRevAux (n + 1) n).reverse).map digitToChar

/-- Parse a decimal numeral; `none` on the empty string or any non-digit. -/
def charsToNat (l : List Char) : Option Nat :=
  if l.isEmpty || !(l.all Char.isDigit) then none
  else some (l.foldl (fun a c => 10 * a + charToDigit c) 0)

/-- One yaml mapping line: `<key>: <value>`. -/
def encodeEntry (p : Nat × List Char) : List Char :=
  natToChars p.1 ++ (':' :: ' ' :: p.2)

/-- Join document lines with newlines (no trailing newline). -/
def joinLines : List (List Char) → List Char
  | [] => []
  | l :: ls =>
    match ls with
    | [] => l
    | _ :: _ => l ++ '\n' :: joinLines ls

/-- `yaml.dump` of the mapping (line 46 of `_ip_cache.py`), modelled as the
canonical `k: v` line per entry, in the order of the association list (a
Python dict has distinct keys; yaml emits them sorted, so a dict's on-disk
image is its sorted association list — the round-trip below holds uniformly
in the order). -/
def yamlDumpChars (m : List (Nat × List Char)) : List Char :=
  joinLines (m.map encodeEntry)

/-- Split a document into lines at newline characters. -/
def splitLines : List Char → List (List Char)
  | [] => [[]]
  | c :: rest =>
    if c = '\n' then [] :: splitLines rest
    else
      match splitLines rest with
      | [] => [[c]]
      | f :: fs => (c :: f) :: fs

/-- Break a line at the first `: ` separator. -/
def breakAtColonSpace : List Char → Option (List Char × List Char)
  | [] => none
  | c :: rest =>
    match rest with
    | [] => none
    | c₂ :: rest₂ =>
      if c = ':' ∧ c₂ = ' ' then some ([], rest₂)
      else (breakAtColonSpace rest).map (fun p => (c :: p.1, p.2))

/-- Parse one `k: v` mapping line. -/
def parseEntry (l : List Char) : Option (Nat × List Char) :=
  (breakAtColonSpace l).bind
    (fun p => (charsToNat p.1).map (fun n => (n, p.2)))

/-- Parse every line of a document body; any failure fails the whole parse. -/
def parseEntries : List (List Char) → Option (List (Nat × List Char))
  | [] => some []
  | l :: ls =>
    (parseEntry l).bind (fun p => (parseEntries ls).map (fun ps => p :: ps))

/-- `yaml.safe_load` of a mapping document: parse every line; any failure
yields `none` (which the caller's `or {}` turns into the empty mapping —
in particular the empty document). -/
def yamlLoadChars (s : List Char) : Option (List (Nat × List Char)) :=
  parseEntries (splitLines s)

/-- Modelled from the spec: the `encryption_utils` module providing
`encrypt_bytes` / `decrypt_bytes` is imported by `_ip_cache.py` but absent
from the source tree (only its callers are present).  Spec §4.7 prescribes
password-derived authenticated symmetric encryption; it is modelled as the
ideal authenticated-encryption functionality: a ciphertext value determines
the plaintext and the password it was produced under, and decryption returns
the plaintext under the matching password and fails authentication under any
other. -/
structure Encrypted where
  payload : List Char
  password : List Char

deriving instance DecidableEq for Encrypted

/-- Ideal-functionality `encrypt_bytes` (spec §4.7). -/
def encrypt_bytes (password data : List Char) : Encrypted := ⟨data, password⟩

/-- Ideal-functionality `decrypt_bytes` (spec §4.7): authenticated, so a
wrong password is detected rather than yielding garbage. -/
def decrypt_bytes (password : List Char) (e : Encrypted) : Option (List Char) :=
  if e.password = password then some e.payload else none

/-- Failure mode of `load_index_to_ip`. -/
inductive LoadError where
  | authenticationFailure

deriving instance DecidableEq for LoadError

/-- Translation of `load_index_to_ip` (`_ip_cache.py` lines 7-30): a missing
cache file is touched and yields `{}` (lines 20-22); otherwise the bytes are
read and decrypted — an authentication failure is the error case — and the
decrypted yaml is parsed, `or {}` substituting the empty mapping for an
empty parse (line 29).  `file` is the current content of
`ips/indexed_ips.yaml`, `none` when it does not exist. -/
def load_index_to_ip (password : List Char) (file : Option Encrypted) :
    Except LoadError (List (Nat × List Char)) :=
  match file with
  | none => Except.ok []
  | some e =>
    match decrypt_bytes password e with
    | none => Except.error LoadError.authenticationFailure
    | some data => Except.ok ((yamlLoadChars data).getD [])

/-- Translation of `save_index_to_ip` (`_ip_cache.py` lines 33-51): dump the
mapping to yaml, encrypt, write; the result is the new content of
`ips/indexed_ips.yaml`. -/
def save_index_to_ip (password : List Char) (m : List (Nat × List Char)) :
    Option Encrypted :=
  some (encrypt_bytes password (yamlDumpChars m))

/-- Filesystem operations, for the write-path analysis of C9. -/
inductive FsOp where
  | makeDir (path : List Char)
  | writeFile (path : List Char) (data : Encrypted)
  | renameFile (src dst : List Char)

deriving instance DecidableEq for FsOp

/-- The cache file path `<cache>/ips/indexed_ips.yaml`. -/
def ipsCacheFilePath (cache : List Char) : List Char :=
  cache ++ ("/ips/indexed_ips.yaml").data

/-- The filesystem operations `save_index_to_ip` performs, in order
(`_ip_cache.py` lines 42-51): `mkdir(exist_ok=True)` on `<cache>/ips`
(line 43), then a single direct `open(mode="wb")` + `write` of the encrypted
dump at the target path (lines 49-50).  No temporary file and no rename
appears anywhere in the function. -/
def save_index_to_ip_ops (password cache : List Char)
    (m : List (Nat × List Char)) : List FsOp :=
  [FsOp.makeDir (cache ++ ("/ips").data),
   FsOp.writeFile (ipsCacheFilePath cache)
     (encrypt_bytes password (yamlDumpChars m))]

/-- The write-temp-then-rename pattern asserted by the claim: some sibling
temporary path distinct from the target is written and then renamed onto the
target. -/
def writesTempThenRename (ops : List FsOp) (target : List Char) : Prop :=
  ∃ tmp, tmp ≠ target ∧ (∃ d, FsOp.writeFile tmp d ∈ ops) ∧
    FsOp.renameFile tmp target ∈ ops

/-- A concrete two-entry index map. -/
def exampleIndexMap : List (Nat × List Char) :=
  [(3, ("10.0.0.1").data), (7, ("10.0.0.2").data)]

end S3LogExtraction

namespace S3LogExtraction

/-- Looking a key up after one `updGroups` step: the updated key gains one
record, every other key is untouched. -/
theorem lookupGroups_updGroups (m : List (List Char × KeyData))
    (k k₁ t b i : List Char) :
    lookupGroups (updGroups m k₁ t b i) k =
      if k₁ = k then
        ⟨(lookupGroups m k).timestamps ++ [t],
         (lookupGroups m k).bytesSent ++ [b],
         (lookupGroups m k).fullIps ++ [i]⟩
      else lookupGroups m k := by
  induction m with
  | nil =>
    by_cases h : k₁ = k <;> simp [updGroups, lookupGroups, h]
  | cons p rest ih =>
    obtain ⟨k₀, d⟩ := p
    by_cases h0 : k₀ = k₁
    · subst h0
      by_cases h1 : k₀ = k <;> simp [updGroups, lookupGroups, h1]
    · by_cases h1 : k₀ = k
      · have h2 : ¬ k₁ = k := fun h => h0 (h1.trans h.symm)
        have h3 : ¬ k = k₁ := fun h => h2 h.symm
        simp [updGroups, lookupGroups, h1, h2, h3]
      · simp [updGroups, lookupGroups, h0, h1, ih]

/-- Folding the grouping update over a record list appends, per key, exactly
the records carrying that key, in order. -/
theorem lookupGroups_foldl
    (quads : List (List Char × List Char × List Char × List Char))
    (m : List (List Char × KeyData)) (k : List Char) :
    lookupGroups
        (quads.foldl (fun m q => updGroups m q.1 q.2.1 q.2.2.1 q.2.2.2) m) k =
      ⟨(lookupGroups m k).timestamps ++
          (quads.filter (fun q => q.1 == k)).map (fun q => q.2.1),
       (lookupGroups m k).bytesSent ++
          (quads.filter (fun q => q.1 == k)).map (fun q => q.2.2.1),
       (lookupGroups m k).fullIps ++
          (quads.filter (fun q => q.1 == k)).map (fun q => q.2.2.2)⟩ := by
  induction quads generalizing m with
  | nil => simp
  | cons q rest ih =>
    obtain ⟨kq, t, b, i⟩ := q
    rw [List.foldl_cons, ih, lookupGroups_updGroups]
    by_cases h : kq = k
    · simp [h, List.append_assoc]
    · have h2 : ((kq, t, b, i).1 == k) = false := by
        simpa using h
      simp [h, h2]

/-- The first components of the zipped records are the first
`min`-of-the-four-lengths entries of the key stream. -/
theorem zip4_map_fst {α β γ δ : Type}
    (as : List α) (bs : List β) (cs : List γ) (ds : List δ) :
    (zip4 as bs cs ds).map (fun q => q.1) =
      as.take (min as.length (min bs.length (min cs.length ds.length))) := by
  induction as generalizing bs cs ds with
  | nil => simp [zip4]
  | cons a as ih =>
    cases bs with
    | nil => simp [zip4]
    | cons b bs =>
      cases cs with
      | nil => simp [zip4]
      | cons c cs =>
        cases ds with
        | nil => simp [zip4]
        | cons d ds =>
          simp [zip4, ih, Nat.succ_min_succ]

/-- C10: in the DANDI mirror-copy grouping, the lines appended for object key
`k` are exactly the records of `zip4` (Python `zip`, truncating to the
shortest of the four temporary streams, excess lines silently dropped)
whose key equals `k`, in source order; in particular the three per-key
files receive the same number of lines, equal to the number of occurrences
of `k` among the first `n` lines of `object_keys.txt`, where `n` is the
minimum of the four stream lengths. -/
theorem dandi_mirror_copy_spec (keys ts bs ips : List (List Char))
    (k : List Char) :
    (lookupGroups (dandi_mirror_groups keys ts bs ips) k).timestamps =
        ((zip4 keys ts bs ips).filter (fun q => q.1 == k)).map (fun q => q.2.1) ∧
    (lookupGroups (dandi_mirror_groups keys ts bs ips) k).bytesSent =
        ((zip4 keys ts bs ips).filter (fun q => q.1 == k)).map (fun q => q.2.2.1) ∧
    (lookupGroups (dandi_mirror_groups keys ts bs ips) k).fullIps =
        ((zip4 keys ts bs ips).filter (fun q => q.1 == k)).map (fun q => q.2.2.2) ∧
    (lookupGroups (dandi_mirror_groups keys ts bs ips) k).timestamps.length =
        (keys.take
          (min keys.length (min ts.length (min bs.length ips.length)))).count k ∧
    (lookupGroups (dandi_mirror_groups keys ts bs ips) k).bytesSent.length =
        (lookupGroups (dandi_mirror_groups keys ts bs ips) k).timestamps.length ∧
    (lookupGroups (dandi_mirror_groups keys ts bs ips) k).fullIps.length =
        (lookupGroups (dandi_mirror_groups keys ts bs ips) k).timestamps.length := by
  have hfold := lookupGroups_foldl (zip4 keys ts bs ips) [] k
  have hbase : lookupGroups [] k = ⟨[], [], []⟩ := rfl
  rw [hbase] at hfold
  simp only [List.nil_append] at hfold
  have hcount :
      ((zip4 keys ts bs ips).filter (fun q => q.1 == k)).length =
        (keys.take
          (min keys.length (min ts.length (min bs.length ips.length)))).count k := by
    rw [← zip4_map_fst keys ts bs ips, List.count_eq_countP,
      List.countP_map, ← List.countP_eq_length_filter]
    rfl
  refine ⟨?_, ?_, ?_, ?_, ?_, ?_⟩ <;>
    simp [dandi_mirror_groups, hfold, hcount]

/-- C2 (code bug): on any cache whose mirror contains at least one
`full_ips.txt` — here a single file with one IP — `index_ips` raises
`NameError: full_ip_file_paths_to_process` (an undefined name used at line 72
of `_index_ips.py`) before indexing anything, so the claimed index reuse and
bijection maintenance never execute. -/
theorem index_ips_name_error :
    index_ips [("/cache/extraction/blobs/aaa/key/full_ips.txt").data] [] =
      Except.error (PyError.nameError ("full_ip_file_paths_to_process").data) := rfl

/-- C3 (counterexample): take the startup state whose mirror-copy start
record contains one path and whose end record file does not exist.  Treating
the missing end record as the empty set, the claimed difference is non-empty,
yet the constructor's check (which requires both files to exist) reports no
corruption. -/
theorem mirror_check_claim_cex :
    (([aLogPath]).filter
        (fun p => !(([] : List (List Char)).contains p)) ≠ []) ∧
    mirrorCorruptionCheck (some [aLogPath]) none = InitOutcome.ok := by
  constructor
  · decide
  · rfl

/-- C3 (amended): construction raises the corruption error iff **both** the
mirror-copy start and end record files exist and their set difference
(start minus end) is non-empty; in every other startup state — in particular
whenever the end record file is missing — no error is raised.  The check only
reads the two record files (the embedding is a pure function of their
contents): it modifies no cache file. -/
theorem mirror_check_spec (startRec endRec : Option (List (List Char))) :
    mirrorCorruptionCheck startRec endRec = InitOutcome.corruptionError ↔
      (∃ s, startRec = some s ∧ ∃ e, endRec = some e ∧
        s.filter (fun p => !(e.contains p)) ≠ []) := by
  cases startRec with
  | none => simp [mirrorCorruptionCheck, mirrorRecordDifference]
  | some s =>
    cases endRec with
    | none => simp [mirrorCorruptionCheck, mirrorRecordDifference]
    | some e =>
      by_cases h : s.filter (fun p => !(e.contains p)) = []
      · simp [mirrorCorruptionCheck, mirrorRecordDifference, h]
      · simp [mirrorCorruptionCheck, mirrorRecordDifference, h,
          List.length_pos, h]

/-- C4 (counterexample): a log file whose extraction pass produces no
`object_keys.txt` (`runExtraction` returns `none`).  `extract_file` returns
without error and without touching the mirror, but contrary to the claim the
file is **not** recorded as end-processed: the in-memory record, the
extraction record file and the mirror-copy end record all stay empty, so a
subsequent run revisits the file. -/
theorem empty_log_claim_cex :
    (extract_file countingMirrorCopy (fun _ => none) (freshState false)
        aLogPath).extractionRecord.contains aLogPath = false ∧
    (extract_file countingMirrorCopy (fun _ => none) (freshState false)
        aLogPath).extractionRecordFile = [] ∧
    (extract_file countingMirrorCopy (fun _ => none) (freshState false)
        aLogPath).mirrorEndRecordFile = [] := by
  refine ⟨?_, ?_, ?_⟩ <;> rfl

/-- C4 (amended): for every log file whose field-extraction pass produces no
`object_keys.txt`, `extract_file` completes without error and leaves the
entire state unchanged: the mirror tree is untouched, but the file is also
not recorded as end-processed, so subsequent runs dispatch and re-scan it
(its extraction pass again producing no mirror impact). -/
theorem empty_log_spec {μ : Type} (mcopy : μ → TempStreams → μ)
    (runExtraction : List Char → Option TempStreams)
    (s : ExtractorState μ) (path : List Char)
    (hrun : runExtraction path = none) :
    extract_file mcopy runExtraction s path = s := by
  simp [extract_file, hrun]

/-- C4 witness: the amended statement evaluated on the concrete fresh state
and path. -/
theorem empty_log_spec_witness :
    extract_file countingMirrorCopy (fun _ => none) (freshState false)
      aLogPath = freshState false :=
  empty_log_spec countingMirrorCopy (fun _ => none) (freshState false)
    aLogPath rfl

/-- C5 (code bug): the sentinel created by the stop operation is **not** the
file whose presence the workers check.  `stop_extraction` touches
`<cache>/extraction/stop_extraction` while each worker polls
`<cache>/records/stop_extraction`; consequently, after the stop operation
runs on an otherwise empty filesystem the worker does not see a sentinel and
a subsequent `extract_file` call still processes a new file (here appending
it to the extraction record and running the mirror copy). -/
theorem stop_sentinel_bug :
    stopCommandSentinelPath cacheRootC ≠ workerStopFilePath cacheRootC ∧
    workerSeesStop cacheRootC (filesystemAfterStop cacheRootC []) = false ∧
    (extract_file countingMirrorCopy (fun _ => some exampleStreams)
        (freshState (workerSeesStop cacheRootC (filesystemAfterStop cacheRootC [])))
        aLogPath).extractionRecordFile = [aLogPath] ∧
    (extract_file countingMirrorCopy (fun _ => some exampleStreams)
        (freshState (workerSeesStop cacheRootC (filesystemAfterStop cacheRootC [])))
        aLogPath).mirror = 1 := by
  refine ⟨by decide, by decide, ?_, ?_⟩ <;> rfl

/-- C6 (code bug): the dispatch order of `extract_directory` is not
deterministic across runs.  With the same directory contents (two log files)
and the same empty extraction record, one admissible set-iteration order
dispatches `[a, b]` and another dispatches `[b, a]`: the natural sort of line
214 is discarded by the set construction, and CPython's set iteration order
varies with the per-process string-hash seed. -/
theorem dispatch_order_bug :
    extract_directory_dispatch id [aLogPath, bLogPath] [] none =
      [aLogPath, bLogPath] ∧
    extract_directory_dispatch List.reverse [aLogPath, bLogPath] [] none =
      [bLogPath, aLogPath] ∧
    ([aLogPath, bLogPath] ≠ [bLogPath, aLogPath]) := by
  refine ⟨by decide, by decide, by decide⟩

/-- C1 (counterexample): the filter of `extraction_awk_script` disagrees with
the claim in both directions.  The canonical well-formed `REST.GET.OBJECT`
line with status 200 satisfies the claim's conditions but is not emitted
(with field separator `" ` the script's third segment is the quoted
user-agent region, whose first character is `"`); and a malformed line whose
status field is the two-character `2x` is emitted although it carries no
3-digit status. -/
theorem awk_filter_claim_cex :
    claimEmits defaultIpsToSkip canonicalGetLine = true ∧
    emitsRecord canonicalGetLine = false ∧
    claimEmits defaultIpsToSkip shortStatusLine = false ∧
    emitsRecord shortStatusLine = true := by
  refine ⟨?_, ?_, ?_, ?_⟩ <;> rfl

/-- C1 (amended): a record is emitted into the extraction streams iff, after
splitting the line on the two-character separator quote-space, the 8th
whitespace field of the first segment equals `REST.GET.OBJECT` and the first
whitespace field of the third segment begins with the character `2`.  No
3-digit length or digit check is applied to that field, no IPs-to-skip
filtering exists in this extractor, and every other line (malformed ones
included) is skipped without error. -/
theorem awk_filter_spec (line : List Char) :
    (extractedRecord line).isSome = true ↔
      (awkRequestTypeField line = "REST.GET.OBJECT".data ∧
        (awkStatusField line).take 1 = ['2']) := by
  have h : (extractedRecord line).isSome = emitsRecord line := by
    by_cases h : emitsRecord line <;> simp [extractedRecord, h]
  rw [h]
  simp [emitsRecord, awkRequestTypeField, awkStatusField]

/-- C7 (counterexample): with 4 CPUs, a requested worker count of `-6` is
mapped by `_handle_max_workers` to `(-6) % 4 + 1 = 3`, while the claim's
formula `cpu_count + w + 1` gives `-1`.  The claim's description of negative
values is therefore false for `w < -cpu_count`. -/
theorem handle_max_workers_claim_cex :
    handle_max_workers Platform.posix 4 (-6) = 3 ∧ ((4 : Int) + (-6) + 1 ≠ 3) := by
  constructor
  · rfl
  · decide

/-- C7 (amended): `_handle_max_workers` maps a requested count `w` as follows.
On Windows every request yields `1`.  Elsewhere `w = 0` falls back to the
default `-2` and, like every negative request, is mapped to
`w % cpu_count + 1` (Python modulo); this agrees with the claim's formula
`cpu_count + w + 1` exactly when `-cpu_count ≤ w ≤ -1`.  A positive request
yields `min w cpu_count`; in particular `1` stays `1` (serial). -/
theorem handle_max_workers_spec (c : Nat) (w : Int) (h : 0 < c) :
    handle_max_workers Platform.win32 c w = 1 ∧
    handle_max_workers Platform.posix c w =
      (if w = 0 then (-2 : Int) % (c : Int) + 1
       else if w < 0 then w % (c : Int) + 1
       else min w (c : Int)) ∧
    (-(c : Int) ≤ w → w < 0 → w % (c : Int) + 1 = (c : Int) + w + 1) := by
  have hc : (0 : Int) < (c : Int) := by exact_mod_cast h
  refine ⟨?_, ?_, ?_⟩
  · simp only [handle_max_workers]
    by_cases h0 : w = 0
    · simp [h0]
      omega
    · by_cases h1 : w = 1
      · simp [h1]
        omega
      · simp [h0, h1]
        omega
  · simp only [handle_max_workers]
    by_cases h0 : w = 0
    · simp [h0]
    · by_cases hneg : w < 0
      · have hm : (0 : Int) ≤ w % (c : Int) := Int.emod_nonneg _ (by omega)
        simp [h0, hneg]
      · have hpos : 0 < w := by omega
        simp [h0, hneg]
        by_cases hbig : w > (c : Int)
        · simp [hbig]
          omega
        · simp [hbig]
          omega
  · intro hlow hneg
    have hshift : (w + (c : Int)) % (c : Int) = w % (c : Int) := by
      have h2 := Int.add_mul_emod_self_left (a := w) (b := (c : Int)) (c := (1 : Int))
      rw [mul_one] at h2
      exact h2
    have hval : (w + (c : Int)) % (c : Int) = w + (c : Int) :=
      Int.emod_eq_of_lt (by omega) (by omega)
    omega

/-- C7 witness: the amended characterization evaluated at `cpu_count = 4`,
`w = -6`. -/
theorem handle_max_workers_spec_witness :
    handle_max_workers Platform.win32 4 (-6) = 1 ∧
    handle_max_workers Platform.posix 4 (-6) =
      (if (-6 : Int) = 0 then (-2 : Int) % ((4 : Nat) : Int) + 1
       else if (-6 : Int) < 0 then (-6 : Int) % ((4 : Nat) : Int) + 1
       else min (-6 : Int) ((4 : Nat) : Int)) ∧
    (-((4 : Nat) : Int) ≤ (-6 : Int) → (-6 : Int) < 0 →
      (-6 : Int) % ((4 : Nat) : Int) + 1 = ((4 : Nat) : Int) + (-6 : Int) + 1) :=
  handle_max_workers_spec 4 (-6) (by decide)

/-! ### Round-trip lemmas for the index-to-IP cache serialisation -/

/-- Reading back a rendered decimal digit. -/
theorem charToDigit_digitToChar (d : Nat) (h : d < 10) :
    charToDigit (digitToChar d) = d := by
  interval_cases d <;> decide

/-- Rendered decimal digits are digit characters. -/
theorem isDigit_digitToChar (d : Nat) (h : d < 10) :
    (digitToChar d).isDigit = true := by
  interval_cases d <;> decide

/-- Rendered decimal digits are not the colon character. -/
theorem digitToChar_ne_colon (d : Nat) (h : d < 10) : digitToChar d ≠ ':' := by
  interval_cases d <;> decide

/-- Rendered decimal digits are not the newline character. -/
theorem digitToChar_ne_newline (d : Nat) (h : d < 10) :
    digitToChar d ≠ '\n' := by
  interval_cases d <;> decide

/-- `digitsRevAux` produces digit values. -/
theorem digitsRevAux_lt (fuel n : Nat) :
    ∀ d ∈ digitsRevAux fuel n, d < 10 := by
  induction fuel generalizing n with
  | zero => simp [digitsRevAux]
  | succ fuel ih =>
    by_cases h : n = 0
    · simp [digitsRevAux, h]
    · simp only [digitsRevAux, h, if_false, List.mem_cons]
      rintro d (rfl | hd)
      · omega
      · exact ih (n / 10) d hd

/-- `digitsRevAux` computes the little-endian decimal digits. -/
theorem ofDigits_digitsRevAux (fuel n : Nat) (h : n < fuel) :
    Nat.ofDigits 10 (digitsRevAux fuel n) = n := by
  induction fuel generalizing n with
  | zero => omega
  | succ fuel ih =>
    by_cases h0 : n = 0
    · simp [digitsRevAux, h0, Nat.ofDigits_nil]
    · have hdiv : n / 10 < fuel := by
        have hself : n / 10 < n :=
          Nat.div_lt_self (Nat.pos_of_ne_zero h0) (by norm_num)
        omega
      simp only [digitsRevAux, h0, if_false, Nat.ofDigits_cons, ih (n / 10) hdiv]
      omega

/-- Folding the decimal reconstruction over digit characters equals the
numeric fold over the digit values. -/
theorem foldl_map_digitToChar (L : List Nat) (A : Nat) (h : ∀ d ∈ L, d < 10) :
    (L.map digitToChar).foldl (fun a c => 10 * a + charToDigit c) A =
      L.foldl (fun a d => 10 * a + d) A := by
  induction L generalizing A with
  | nil => rfl
  | cons d L ih =>
    have hd : d < 10 := h d (by simp)
    have hL : ∀ x ∈ L, x < 10 := fun x hx => h x (by simp [hx])
    simp [List.foldl_cons, charToDigit_digitToChar d hd, ih _ hL]

/-- The big-endian numeric fold in terms of `Nat.ofDigits`. -/
theorem foldl_eq_ofDigits (L : List Nat) (A : Nat) :
    L.foldl (fun a d => 10 * a + d) A =
      A * 10 ^ L.length + Nat.ofDigits 10 L.reverse := by
  induction L generalizing A with
  | nil => simp [Nat.ofDigits_nil]
  | cons d L ih =>
    rw [List.foldl_cons, ih, List.reverse_cons, Nat.ofDigits_append]
    simp [Nat.ofDigits_cons, Nat.ofDigits_nil, pow_succ]
    ring

/-- Parsing inverts rendering for decimal numerals. -/
theorem charsToNat_natToChars (n : Nat) : charsToNat (natToChars n) = some n := by
  by_cases h0 : n = 0
  · subst h0
    decide
  · have hne : digitsRevAux (n + 1) n ≠ [] := by
      simp [digitsRevAux, h0]
    have hlt := digitsRevAux_lt (n + 1) n
    have hltr : ∀ d ∈ (digitsRevAux (n + 1) n).reverse, d < 10 := by
      intro d hd
      exact hlt d (List.mem_reverse.mp hd)
    have hdig : ∀ c ∈ natToChars n, c.isDigit = true := by
      intro c hc
      simp only [natToChars, h0, if_false, List.mem_map] at hc
      obtain ⟨d, hd, rfl⟩ := hc
      exact isDigit_digitToChar d (hltr d hd)
    have hmapne : natToChars n ≠ [] := by
      simp only [natToChars, h0, if_false]
      simp [hne]
    have hall : (natToChars n).all Char.isDigit = true := by
      rw [List.all_eq_true]
      intro x hx
      exact hdig x hx
    have hemp : (natToChars n).isEmpty = false := by
      cases hnc : natToChars n with
      | nil => exact absurd hnc hmapne
      | cons a l => rfl
    rw [charsToNat, if_neg (by rw [hemp, hall]; decide)]
    simp only [natToChars, h0, if_false]
    rw [foldl_map_digitToChar _ _ hltr, foldl_eq_ofDigits,
      List.reverse_reverse, ofDigits_digitsRevAux (n + 1) n (by omega)]
    simp

/-- Every character of a rendered decimal numeral is a digit character. -/
theorem natToChars_isDigit (n : Nat) :
    ∀ c ∈ natToChars n, c.isDigit = true := by
  intro c hc
  by_cases h0 : n = 0
  · subst h0
    simp only [natToChars, if_true] at hc
    simp at hc
    subst hc
    decide
  · simp only [natToChars, h0, if_false, List.mem_map] at hc
    obtain ⟨d, hd, rfl⟩ := hc
    exact isDigit_digitToChar d (digitsRevAux_lt _ _ d (List.mem_reverse.mp hd))

/-- Splitting a newline-free line yields that line alone. -/
theorem splitLines_single (l : List Char) (h : ('\n') ∉ l) :
    splitLines l = [l] := by
  induction l with
  | nil => rfl
  | cons c rest ih =>
    have hc : ¬ c = '\n' := fun hc => h (by simp [hc])
    have hr : ('\n') ∉ rest := fun hr => h (by simp [hr])
    simp [splitLines, hc, ih hr]

/-- Splitting after a newline-free first line peels it off. -/
theorem splitLines_append (l rest : List Char) (h : ('\n') ∉ l) :
    splitLines (l ++ '\n' :: rest) = l :: splitLines rest := by
  induction l with
  | nil => simp [splitLines]
  | cons c l ih =>
    have hc : ¬ c = '\n' := fun hc => h (by simp [hc])
    have hl : ('\n') ∉ l := fun hl => h (by simp [hl])
    simp only [List.cons_append, splitLines, hc, if_false, List.append_eq,
      ih hl]

/-- Splitting inverts joining for a non-empty list of newline-free lines. -/
theorem splitLines_joinLines (ls : List (List Char)) (hne : ls ≠ [])
    (h : ∀ l ∈ ls, ('\n') ∉ l) : splitLines (joinLines ls) = ls := by
  induction ls with
  | nil => exact absurd rfl hne
  | cons l ls ih =>
    cases ls with
    | nil =>
      simp only [joinLines]
      exact splitLines_single l (h l (by simp))
    | cons l₂ ls₂ =>
      have h1 : ('\n') ∉ l := h l (by simp)
      have h2 : ∀ x ∈ l₂ :: ls₂, ('\n') ∉ x := fun x hx => h x (by simp [hx])
      have hjoin : joinLines (l :: l₂ :: ls₂) =
          l ++ '\n' :: joinLines (l₂ :: ls₂) := rfl
      rw [hjoin, splitLines_append _ _ h1, ih (by simp) h2]

/-- Breaking at `: ` after a colon-free first segment recovers the split. -/
theorem breakAtColonSpace_encode (pre rest : List Char)
    (h : ∀ c ∈ pre, c ≠ ':') :
    breakAtColonSpace (pre ++ ':' :: ' ' :: rest) = some (pre, rest) := by
  induction pre with
  | nil => simp [breakAtColonSpace]
  | cons c pre ih =>
    have hc : c ≠ ':' := h c (by simp)
    have h2 : ∀ x ∈ pre, x ≠ ':' := fun x hx => h x (by simp [hx])
    cases pre with
    | nil =>
      simp [breakAtColonSpace, hc]
    | cons c₂ pre₂ =>
      have hrec := ih h2
      simp only [List.cons_append] at hrec ⊢
      rw [breakAtColonSpace]
      simp only [hrec]
      simp [hc]

/-- Parsing inverts rendering for one mapping entry. -/
theorem parseEntry_encodeEntry (p : Nat × List Char) :
    parseEntry (encodeEntry p) = some p := by
  obtain ⟨k, v⟩ := p
  have hpre : ∀ c ∈ natToChars k, c ≠ ':' := by
    intro c hc hcol
    have := natToChars_isDigit k c hc
    rw [hcol] at this
    exact absurd this (by decide)
  rw [parseEntry, encodeEntry]
  simp only
  rw [breakAtColonSpace_encode _ _ hpre]
  simp [charsToNat_natToChars]

/-- Parsing inverts rendering entrywise over the whole document body. -/
theorem parseEntries_map_encodeEntry (m : List (Nat × List Char)) :
    parseEntries (m.map encodeEntry) = some m := by
  induction m with
  | nil => rfl
  | cons p m ih =>
    simp [parseEntries, parseEntry_encodeEntry, ih]

/-- A rendered entry contains no newline when its value contains none. -/
theorem encodeEntry_no_newline (p : Nat × List Char) (hv : ('\n') ∉ p.2) :
    ('\n') ∉ encodeEntry p := by
  obtain ⟨k, v⟩ := p
  intro hmem
  rw [encodeEntry] at hmem
  rcases List.mem_append.mp hmem with hk | hkv
  · exact absurd (natToChars_isDigit k _ hk) (by decide)
  · rcases hkv with _ | ⟨_, (_ | ⟨_, hv2⟩)⟩
    · exact hv hv2

/-- The yaml load of a yaml dump recovers the mapping. -/
theorem yamlLoadChars_yamlDumpChars (m : List (Nat × List Char))
    (hv : ∀ p ∈ m, ('\n') ∉ p.2) :
    (yamlLoadChars (yamlDumpChars m)).getD [] = m := by
  cases m with
  | nil => rfl
  | cons p m =>
    have hnl : ∀ l ∈ (p :: m).map encodeEntry, ('\n') ∉ l := by
      intro l hl
      obtain ⟨q, hq, rfl⟩ := List.mem_map.mp hl
      exact encodeEntry_no_newline q (hv q hq)
    rw [yamlLoadChars, yamlDumpChars,
      splitLines_joinLines _ (by simp) hnl, parseEntries_map_encodeEntry]
    rfl

/-- C8: saving the index-to-IP cache and loading it back returns exactly the
saved mapping when the correct password is supplied, and loading with any
other password fails with an authentication error instead of returning a
mapping.  (The hypothesis states that the stored IP strings contain no
newline, true of every dotted-quad value.) -/
theorem ip_cache_roundtrip (pw pw' : List Char) (m : List (Nat × List Char))
    (hv : ∀ p ∈ m, ('\n') ∉ p.2) :
    load_index_to_ip pw (save_index_to_ip pw m) = Except.ok m ∧
    (pw' ≠ pw →
      load_index_to_ip pw' (save_index_to_ip pw m) =
        Except.error LoadError.authenticationFailure) := by
  have hdec : decrypt_bytes pw (encrypt_bytes pw (yamlDumpChars m)) =
      some (yamlDumpChars m) := by
    rw [decrypt_bytes, encrypt_bytes, if_pos rfl]
  constructor
  · rw [save_index_to_ip]
    simp only [load_index_to_ip, hdec]
    rw [yamlLoadChars_yamlDumpChars m hv]
  · intro hne
    have hdec2 : decrypt_bytes pw' (encrypt_bytes pw (yamlDumpChars m)) =
        none := by
      rw [decrypt_bytes, encrypt_bytes, if_neg (fun h => hne h.symm)]
    rw [save_index_to_ip]
    simp only [load_index_to_ip, hdec2]

/-- C8 witness: the round-trip at a concrete two-entry mapping with password
`secret` and wrong password `wrong`. -/
theorem ip_cache_roundtrip_witness :
    load_index_to_ip (("secret").data)
        (save_index_to_ip (("secret").data) exampleIndexMap) =
      Except.ok exampleIndexMap ∧
    ((("wrong").data ≠ ("secret").data) →
      load_index_to_ip (("wrong").data)
          (save_index_to_ip (("secret").data) exampleIndexMap) =
        Except.error LoadError.authenticationFailure) :=
  ip_cache_roundtrip (("secret").data) (("wrong").data) exampleIndexMap
    (by decide)

/-- C9 (counterexample): the write trace of `save_index_to_ip` on a concrete
mapping exhibits no write-temp-then-rename pattern: no rename operation
occurs at all, and the encrypted content is written directly at the target
path. -/
theorem ip_cache_save_not_atomic_cex :
    ¬ writesTempThenRename
        (save_index_to_ip_ops (("secret").data) cacheRootC exampleIndexMap)
        (ipsCacheFilePath cacheRootC) := by
  rintro ⟨tmp, hne, ⟨d, hw⟩, hr⟩
  simp [save_index_to_ip_ops] at hr

/-- C9 (amended): `save_index_to_ip` writes the encrypted dump directly (in
place) at `ips/indexed_ips.yaml` after an idempotent `mkdir` of `ips/`; no
temporary file and no rename operation occurs, so the write-temp-then-rename
atomicity the claim describes is absent and a concurrent reader can observe
the file mid-write. -/
theorem ip_cache_save_spec (pw cache : List Char) (m : List (Nat × List Char)) :
    FsOp.writeFile (ipsCacheFilePath cache)
        (encrypt_bytes pw (yamlDumpChars m)) ∈ save_index_to_ip_ops pw cache m ∧
    (∀ s t, FsOp.renameFile s t ∉ save_index_to_ip_ops pw cache m) := by
  constructor
  · simp [save_index_to_ip_ops]
  · intro s t hmem
    simp [save_index_to_ip_ops] at hmem

end S3LogExtraction
